import Mathlib

/-!
Verification development for the discusspedia-be repository.

The definitions below are a shallow embedding of the Go source:
`src/api/post.go` (post handlers and the `repository.PostRepository`
store layer) and the questionnaire handlers.  Go `sql.NullString` /
`sql.NullInt32` columns become explicit (valid, value) pairs, Go maps
keyed by `int` become association lists with first-match lookup, SQL
queries become list-processing functions over an explicit database
state, and the store's transactions become explicit failure-point
oracles.  Timestamps are modelled as integers (the code only copies
and orders them).
-/

namespace Discusspedia

/-- Model of Go `sql.NullString`: a validity flag plus the raw string
(the code sometimes reads `.String` without checking `.Valid`). -/
structure NullString where
  valid : Bool
  string : String
  deriving DecidableEq, Repr, Inhabited

/-- Model of Go `sql.NullInt32` (the integer is unbounded here; the code
only copies it). -/
structure NullInt where
  valid : Bool
  val : Int
  deriving DecidableEq, Repr, Inhabited

/-- Model of `repository.PostDetail`: one flattened row of the wide
post/author/images join. -/
structure PostDetail where
  id : Int
  isLike : Bool
  authorID : Int
  authorName : String
  authorRole : String
  authorAvatar : NullString
  authorInstitution : NullString
  authorMajor : NullString
  authorBatch : NullInt
  categoryID : Int
  title : String
  description : String
  createdAt : Int
  commentCount : Int
  likeCount : Int
  imageID : NullInt
  imagePath : NullString
  deriving DecidableEq, Repr, Inhabited

/-- Model of `api.AuthorPostResponse`. -/
structure AuthorPostResponse where
  id : Int
  name : String
  role : String
  institute : String
  major : String
  batch : Int
  profileImage : String
  deriving DecidableEq, Repr, Inhabited

/-- Model of `api.PostResponse` (created-at kept as the integer it
formats). -/
structure PostResponse where
  id : Int
  isLike : Bool
  isAuthor : Bool
  author : AuthorPostResponse
  categoryID : Int
  title : String
  description : String
  createdAt : Int
  commentCount : Int
  likeCount : Int
  deriving DecidableEq, Repr, Inhabited

/-- Model of `api.PostImageResponse`. -/
structure PostImageResponse where
  id : Int
  url : String
  deriving DecidableEq, Repr, Inhabited

/-- Model of `api.DetailPostResponse`: post scalars plus nested image
list. -/
structure DetailPostResponse where
  post : PostResponse
  images : List PostImageResponse
  deriving DecidableEq, Repr, Inhabited

/-- First-match lookup in an association list: the model of reading a
Go map keyed by `int`. -/
def assocFind {β : Type} (k : Int) : List (Int × β) → Option β
  | [] => none
  | (k', v) :: rest => if k' = k then some v else assocFind k rest

/-- Update the (first) entry with the given key, if present: the model
of `m[k] = f(m[k])` on a Go map. -/
def assocUpdate {β : Type} (k : Int) (f : β → β) : List (Int × β) → List (Int × β)
  | [] => []
  | (k', v) :: rest => if k' = k then (k', f v) :: rest else (k', v) :: assocUpdate k f rest

/-- The scalar part of one feed entry, as `readPosts` builds it from a
row's first occurrence (`post.go` lines 276–316): nullable author
profile fields default to empty/zero. -/
def mkPostResponse (authorID : Int) (post : PostDetail) : PostResponse :=
  { id := post.id
    isLike := post.isLike
    isAuthor := decide (authorID = post.authorID)
    author :=
      { id := post.authorID
        name := post.authorName
        role := post.authorRole
        major := if post.authorMajor.valid then post.authorMajor.string else ""
        institute := if post.authorInstitution.valid then post.authorInstitution.string else ""
        batch := if post.authorBatch.valid then post.authorBatch.val else 0
        profileImage := if post.authorAvatar.valid then post.authorAvatar.string else "" }
    categoryID := post.categoryID
    title := post.title
    description := post.description
    createdAt := post.createdAt
    commentCount := post.commentCount
    likeCount := post.likeCount }

/-- The first loop of `readPosts` (lines 269–318): build the id queue
and the per-id scalar map, recording each post id on its first
occurrence only. -/
def buildDetail (authorID : Int) (queue : List Int) (detail : List (Int × PostResponse)) :
    List PostDetail → List Int × List (Int × PostResponse)
  | [] => (queue, detail)
  | post :: rest =>
    if (assocFind post.id detail).isSome then
      buildDetail authorID queue detail rest
    else
      let queue' := if queue = [] ∨ queue.getLast? ≠ some post.id then queue ++ [post.id] else queue
      buildDetail authorID queue' (detail ++ [(post.id, mkPostResponse authorID post)]) rest

/-- One step of the second loop of `readPosts` (lines 322–333): ensure
the id has an (initially empty) image list, then append the row's image
when its image columns are valid. -/
def imagesStep (m : List (Int × List PostImageResponse)) (post : PostDetail) :
    List (Int × List PostImageResponse) :=
  let m' := if (assocFind post.id m).isSome then m else m ++ [(post.id, [])]
  if post.imageID.valid then
    assocUpdate post.id
      (fun l => l ++ [{ id := post.imageID.val, url := post.imagePath.string }]) m'
  else m'

/-- The second loop of `readPosts`, folded over all rows. -/
def buildImagesAux (m : List (Int × List PostImageResponse)) :
    List PostDetail → List (Int × List PostImageResponse)
  | [] => m
  | post :: rest => buildImagesAux (imagesStep m post) rest

/-- The image map built by `readPosts` lines 320–333. -/
def buildImages (rows : List PostDetail) : List (Int × List PostImageResponse) :=
  buildImagesAux [] rows

/-- The feed assembler of `readPosts` (lines 266–344): fold the joined
rows into one response entry per post, then emit entries in queue
order. -/
def readPostsAssemble (authorID : Int) (rows : List PostDetail) : List DetailPostResponse :=
  let qd := buildDetail authorID [] [] rows
  let images := buildImages rows
  qd.1.map fun pid =>
    { post := (assocFind pid qd.2).getD default
      images := (assocFind pid images).getD [] }

/-- Specification-side helper: the first row of each distinct post id,
in first-appearance order, skipping ids already `seen`. -/
def firstRowsAvoiding (seen : List Int) : List PostDetail → List PostDetail
  | [] => []
  | r :: rest =>
    if r.id ∈ seen then firstRowsAvoiding seen rest
    else r :: firstRowsAvoiding (r.id :: seen) rest

/-- Specification-side helper: the images contributed to one post id,
one per row whose image columns are present, in row order. -/
def imagesForID (pid : Int) (rows : List PostDetail) : List PostImageResponse :=
  rows.filterMap fun r =>
    if r.id = pid ∧ r.imageID.valid then
      some { id := r.imageID.val, url := r.imagePath.string }
    else none

/-- The feed assembly as the specification words it: one entry per
distinct post id in first-appearance order, scalars from the first row,
image list collected over all of that id's rows (empty when none). -/
def specAssemble (authorID : Int) (rows : List PostDetail) : List DetailPostResponse :=
  (firstRowsAvoiding [] rows).map fun r =>
    { post := mkPostResponse authorID r
      images := imagesForID r.id rows }

/-- Example rows from the specification: post 1 with images A and B,
post 2 with a null image row. -/
def exRow1 : PostDetail :=
  { id := 1, isLike := false, authorID := 10, authorName := "alice",
    authorRole := "member", authorAvatar := ⟨false, ""⟩,
    authorInstitution := ⟨false, ""⟩, authorMajor := ⟨false, ""⟩,
    authorBatch := ⟨false, 0⟩, categoryID := 2, title := "t1",
    description := "d1", createdAt := 50, commentCount := 3,
    likeCount := 4, imageID := ⟨true, 100⟩, imagePath := ⟨true, "A"⟩ }

/-- Second row of post 1, carrying image B. -/
def exRow2 : PostDetail :=
  { exRow1 with imageID := ⟨true, 101⟩, imagePath := ⟨true, "B"⟩ }

/-- Row of post 2, with null image columns. -/
def exRow3 : PostDetail :=
  { id := 2, isLike := true, authorID := 11, authorName := "bob",
    authorRole := "member", authorAvatar := ⟨false, ""⟩,
    authorInstitution := ⟨false, ""⟩, authorMajor := ⟨false, ""⟩,
    authorBatch := ⟨false, 0⟩, categoryID := 2, title := "t2",
    description := "d2", createdAt := 40, commentCount := 0,
    likeCount := 0, imageID := ⟨false, 0⟩, imagePath := ⟨false, ""⟩ }

/-- A row of the `posts` table. -/
structure PostRow where
  id : Int
  authorID : Int
  categoryID : Int
  title : String
  description : String
  createdAt : Int
  deriving DecidableEq, Repr, Inhabited

/-- A row of the `users` table (columns the queries read). -/
structure UserRow where
  id : Int
  name : String
  role : String
  avatar : NullString
  deriving DecidableEq, Repr, Inhabited

/-- A row of the `user_details` table. -/
structure UserDetailRow where
  userID : Int
  institute : NullString
  major : NullString
  batch : NullInt
  deriving DecidableEq, Repr, Inhabited

/-- A row of the `comments` table (only the post reference is read). -/
structure CommentRow where
  id : Int
  postID : Int
  deriving DecidableEq, Repr, Inhabited

/-- A row of the `post_likes` table. -/
structure PostLikeRow where
  id : Int
  postID : Int
  userID : Int
  deriving DecidableEq, Repr, Inhabited

/-- A row of the `questionnaires` table (only post reference and link
nullability are read by the post queries). -/
structure QuestionnaireRow where
  postID : Int
  link : NullString
  deriving DecidableEq, Repr, Inhabited

/-- A row of the `post_images` table. -/
structure PostImageRow where
  id : Int
  postID : Int
  path : String
  deriving DecidableEq, Repr, Inhabited

/-- The database state the post queries range over. -/
structure DB where
  posts : List PostRow
  users : List UserRow
  userDetails : List UserDetailRow
  comments : List CommentRow
  postLikes : List PostLikeRow
  questionnaires : List QuestionnaireRow
  postImages : List PostImageRow
  deriving DecidableEq, Repr, Inhabited

/-- `COUNT(c.id)` grouped by post in the innermost subquery of
`FetchAllPost`. -/
def commentCountOf (db : DB) (pid : Int) : Int :=
  ((db.comments.filter fun c => decide (c.postID = pid)).length : Int)

/-- `COUNT(pl.id)` grouped by post in the middle subquery of
`FetchAllPost`. -/
def likeCountOf (db : DB) (pid : Int) : Int :=
  ((db.postLikes.filter fun l => decide (l.postID = pid)).length : Int)

/-- `SELECT EXISTS (SELECT 1 FROM post_likes WHERE post_id = … AND
user_id = …)`. -/
def isLikedBy (db : DB) (pid uid : Int) : Bool :=
  db.postLikes.any fun l => decide (l.postID = pid ∧ l.userID = uid)

/-- The row the `up` subquery of `FetchAllPost` builds from a post and
its (inner-joined) author: profile from `LEFT JOIN user_details`,
counts, viewer flag; image columns still null. -/
def mkAggRow (db : DB) (viewerID : Int) (p : PostRow) (u : UserRow) : PostDetail :=
  let ud := db.userDetails.find? fun d => decide (d.userID = u.id)
  { id := p.id
    isLike := isLikedBy db p.id viewerID
    authorID := u.id
    authorName := u.name
    authorRole := u.role
    authorAvatar := u.avatar
    authorInstitution := match ud with | some d => d.institute | none => ⟨false, ""⟩
    authorMajor := match ud with | some d => d.major | none => ⟨false, ""⟩
    authorBatch := match ud with | some d => d.batch | none => ⟨false, 0⟩
    categoryID := p.categoryID
    title := p.title
    description := p.description
    createdAt := p.createdAt
    commentCount := commentCountOf db p.id
    likeCount := likeCountOf db p.id
    imageID := ⟨false, 0⟩
    imagePath := ⟨false, ""⟩ }

/-- One row of the `up` subquery of `FetchAllPost`: `INNER JOIN users`
drops the post when its author is missing. -/
def aggRow (db : DB) (viewerID : Int) (p : PostRow) : Option PostDetail :=
  (db.users.find? fun u => decide (u.id = p.authorID)).map (mkAggRow db viewerID p)

/-- `LEFT JOIN questionnaires q ON q.post_id = p.id WHERE q.link IS
NULL`: the post survives when it has no questionnaire row, or that
row's link is null. -/
def noQuestionnaireLink (db : DB) (pid : Int) : Bool :=
  match db.questionnaires.find? fun q => decide (q.postID = pid) with
  | none => true
  | some q => !q.link.valid

/-- ASCII lower-casing, for the storage collation of LIKE. -/
def asciiLower (c : Char) : Char :=
  if 'A' ≤ c ∧ c ≤ 'Z' then Char.ofNat (c.toNat + 32) else c

/-- Does `pat` start the character list `s`? -/
def charsStartWith : List Char → List Char → Bool
  | [], _ => true
  | _ :: _, [] => false
  | a :: as, b :: bs => decide (a = b) && charsStartWith as bs

/-- Does `pat` occur inside the character list `s`? -/
def charsContain (pat : List Char) : List Char → Bool
  | [] => charsStartWith pat []
  | s@(_ :: rest) => charsStartWith pat s || charsContain pat rest

/-- `title LIKE '%pat%'` under SQLite's ASCII-case-insensitive
default collation. -/
def likeMatch (pat s : String) : Bool :=
  charsContain (pat.toList.map asciiLower) (s.toList.map asciiLower)

/-- Structured model of the filter string `readPosts` interpolates
into the list query (post.go 228–252): optional title substring,
category equality, author equality conjuncts. -/
structure PostFilter where
  searchTitle : Option String
  categoryID : Option Int
  meAuthorID : Option Int
  deriving DecidableEq, Repr, Inhabited

/-- The WHERE conjuncts of the filter, evaluated on one aggregated
row. -/
def matchesFilter (f : PostFilter) (row : PostDetail) : Bool :=
  (match f.searchTitle with
   | none => true
   | some s => likeMatch s row.title) &&
  (match f.categoryID with
   | none => true
   | some c => decide (row.categoryID = c)) &&
  (match f.meAuthorID with
   | none => true
   | some a => decide (row.authorID = a))

/-- ORDER BY comparators for the four order strings the handlers can
produce (single-key SQLite orderings). -/
def cmpOfOrderBy (orderBy : String) : PostDetail → PostDetail → Bool :=
  match orderBy with
  | "created_at DESC" => fun x y => decide (y.createdAt ≤ x.createdAt)
  | "created_at" => fun x y => decide (x.createdAt ≤ y.createdAt)
  | "like_count DESC" => fun x y => decide (y.likeCount ≤ x.likeCount)
  | "comment_count DESC" => fun x y => decide (y.commentCount ≤ x.commentCount)
  | _ => fun _ _ => true

/-- The `up` subquery of `FetchAllPost` (post.go 653–684): aggregate,
filter, sort, then page — all before the image join.  LIMIT and OFFSET
are read as nonnegative counts. -/
def pagedPosts (db : DB) (limit offset viewerID : Int) (orderBy : String) (f : PostFilter) :
    List PostDetail :=
  let agg := db.posts.filterMap (aggRow db viewerID)
  let filtered := agg.filter fun r => noQuestionnaireLink db r.id && matchesFilter f r
  let sorted := List.insertionSort (fun x y => cmpOfOrderBy orderBy x y = true) filtered
  (sorted.drop offset.toNat).take limit.toNat

/-- `LEFT JOIN post_images pi ON up.id = pi.post_id`: one row per
matching image, or a single row with null image columns. -/
def leftJoinImages (db : DB) (base : PostDetail) : List PostDetail :=
  match db.postImages.filter fun im => decide (im.postID = base.id) with
  | [] => [base]
  | imgs => imgs.map fun im =>
      { base with imageID := ⟨true, im.id⟩, imagePath := ⟨true, im.path⟩ }

/-- Model of `PostRepository.FetchAllPost` (post.go 632–726): the paged
post set, fanned out over its images. -/
def FetchAllPost (db : DB) (limit offset authorID : Int) (orderBy : String) (f : PostFilter) :
    List PostDetail :=
  (pagedPosts db limit offset authorID orderBy f).flatMap (leftJoinImages db)

/-- The base row `FetchPostByID`'s query (post.go 734–756) builds from
the post and its author: the detail query selects no comment/like
counts, so those fields stay zero. -/
def mkDetailBase (db : DB) (viewerID : Int) (p : PostRow) (u : UserRow) : PostDetail :=
  let ud := db.userDetails.find? fun d => decide (d.userID = u.id)
  { id := p.id
    isLike := isLikedBy db p.id viewerID
    authorID := u.id
    authorName := u.name
    authorRole := u.role
    authorAvatar := u.avatar
    authorInstitution := match ud with | some d => d.institute | none => ⟨false, ""⟩
    authorMajor := match ud with | some d => d.major | none => ⟨false, ""⟩
    authorBatch := match ud with | some d => d.batch | none => ⟨false, 0⟩
    categoryID := p.categoryID
    title := p.title
    description := p.description
    createdAt := p.createdAt
    commentCount := 0
    likeCount := 0
    imageID := ⟨false, 0⟩
    imagePath := ⟨false, ""⟩ }

/-- One base row of `FetchPostByID`'s query, `INNER JOIN users`
included. -/
def detailRow (db : DB) (viewerID : Int) (p : PostRow) : Option PostDetail :=
  (db.users.find? fun u => decide (u.id = p.authorID)).map (mkDetailBase db viewerID p)

/-- Model of `PostRepository.FetchPostByID` (post.go 728–795). -/
def FetchPostByID (db : DB) (postID authorID : Int) : List PostDetail :=
  (((db.posts.filter fun p => decide (p.id = postID)).filterMap
      (detailRow db authorID)).flatMap (leftJoinImages db))

/-- Outcome of the sort_by switch in the list handlers. -/
inductive SortByOutcome
  | ok (orderBy : String)
  | invalid
  deriving DecidableEq, Repr

/-- The sort_by switch of `readPosts` (post.go 213–226), with the
`DefaultQuery` default of `newest`. -/
def parseSortBy (param : Option String) : SortByOutcome :=
  match param.getD "newest" with
  | "newest" => .ok "created_at DESC"
  | "oldest" => .ok "created_at"
  | "most_liked" => .ok "like_count DESC"
  | "most_commented" => .ok "comment_count DESC"
  | _ => .invalid

/-- The sort_by switch of `ReadAllQuestionnaires` (part_000 lines
35–48): same four keys, like/comment counts stored as total_like and
total_comment. -/
def parseSortByQuestionnaire (param : Option String) : SortByOutcome :=
  match param.getD "newest" with
  | "newest" => .ok "created_at DESC"
  | "oldest" => .ok "created_at"
  | "most_liked" => .ok "total_like DESC"
  | "most_commented" => .ok "total_comment DESC"
  | _ => .invalid

/-- Model of `PostRepository.InsertPostImage` (post.go 607–630): the
Begin error is bound to `err`, the Exec and Commit errors to the
shadowing variable `error`, but both of those failure branches return
`err`. -/
def InsertPostImage (beginErr execErr commitErr : Option String) : Option String :=
  match beginErr with
  | some e => some e
  | none =>
    let err : Option String := none
    match execErr with
    | some _ => err
    | none =>
      match commitErr with
      | some _ => err
      | none => none

/-- An HTTP response a handler writes: status code and message. -/
structure Resp where
  status : Nat
  message : String
  deriving DecidableEq, Repr, Inhabited

/-- Modelled from the spec: the token identity resolver
(`getUserIdFromToken`, whose source is outside src) yields a user id or
fails; `getUserIDAvoidPanic` (post.go 519–528) swallows the failure and
returns the anonymous sentinel, the Go zero value 0. -/
def getUserIDAvoidPanic : Except String Int → Int
  | .ok i => i
  | .error _ => 0

/-- Model of `api.CreatePostRequest`. -/
structure CreatePostRequest where
  categoryID : Int
  title : String
  description : String
  deriving DecidableEq, Repr, Inhabited

/-- Model of `api.UpdatePostRequest`. -/
structure UpdatePostRequest where
  id : Int
  categoryID : Int
  title : String
  description : String
  deriving DecidableEq, Repr, Inhabited

/-- Effects of one `createPost` request: every response written, in
order, and every post row persisted. -/
structure CreateEffect where
  responses : List Resp
  inserted : List (Int × Int × String × String)
  deriving DecidableEq, Repr, Inhabited

/-- Model of the `createPost` handler (post.go 81–116).  `bodyOK`
models JSON binding, `titleOK`/`descOK` the moderation gate, `ident`
the token resolver, `insertOutcome` the store call.  The
identity-failure branch writes its response but does not return, so
the insert still runs with the sentinel author id. -/
def createPost (bodyOK titleOK descOK : Bool) (ident : Except String Int)
    (req : CreatePostRequest) (insertOutcome : Except String Int) : CreateEffect :=
  if ¬bodyOK then { responses := [⟨400, "Invalid Request Body"⟩], inserted := [] }
  else if ¬titleOK ∨ ¬descOK then
    { responses := [⟨400, "Your post contains bad words"⟩], inserted := [] }
  else
    let authorID := getUserIDAvoidPanic ident
    let identResps : List Resp :=
      match ident with
      | .error _ => [⟨400, "Your ID cann't read"⟩]
      | .ok _ => []
    match insertOutcome with
    | .error _ =>
      { responses := identResps ++ [⟨500, "Internal Server Error"⟩], inserted := [] }
    | .ok _ =>
      { responses := identResps ++ [⟨200, "Post Created"⟩],
        inserted := [(authorID, req.categoryID, req.title, req.description)] }

/-- Model of `PostRepository.FetchAuthorIDByPostID` (post.go 797–826):
the author id of the post, or the not-found error when no row
matches. -/
inductive AuthorIDResult
  | found (authorID : Int)
  | notFoundErr
  deriving DecidableEq, Repr

/-- The author lookup feeding the ownership checks. -/
def FetchAuthorIDByPostID (db : DB) (postID : Int) : AuthorIDResult :=
  match db.posts.find? fun p => decide (p.id = postID) with
  | some p => .found p.authorID
  | none => .notFoundErr

/-- Model of `PostRepository.UpdatePost` (post.go 828–852): set
category, title and description on every row with the id. -/
def UpdatePost (db : DB) (postID categoryID : Int) (title description : String) : DB :=
  { db with posts := db.posts.map fun p =>
      if p.id = postID then
        { p with categoryID := categoryID, title := title, description := description }
      else p }

/-- Failure points of the `DeletePostByID` transaction. -/
inductive DeleteFailPoint
  | noFailure
  | atBegin
  | atDeletePosts
  | atDeleteImages
  | atCommit
  deriving DecidableEq, Repr

/-- Model of `PostRepository.DeletePostByID` (post.go 854–882): one
transaction deletes the post row, then that post's image rows, then
commits; a failure at any step rolls the transaction back, leaving the
database unchanged. -/
def DeletePostByID (db : DB) (pid : Int) : DeleteFailPoint → Option String × DB
  | .noFailure =>
    (none,
     { db with
        posts := db.posts.filter fun p => decide (¬ p.id = pid)
        postImages := db.postImages.filter fun im => decide (¬ im.postID = pid) })
  | .atBegin => (some "begin failed", db)
  | .atDeletePosts => (some "exec failed", db)
  | .atDeleteImages => (some "exec failed", db)
  | .atCommit => (some "commit failed", db)

/-- Model of the `updatePost` handler (post.go 444–485): body bind,
identity (response written but no return on failure), author lookup
with not-found and forbidden checks, moderation, then the update. -/
def updatePost (db : DB) (bodyOK : Bool) (ident : Except String Int)
    (titleOK descOK : Bool) (req : UpdatePostRequest) : List Resp × DB :=
  if ¬bodyOK then ([⟨400, "Invalid Request Body"⟩], db)
  else
    let reqAuthorID := getUserIDAvoidPanic ident
    let identResps : List Resp :=
      match ident with
      | .error _ => [⟨400, "Your ID cann't read"⟩]
      | .ok _ => []
    match FetchAuthorIDByPostID db req.id with
    | .notFoundErr => (identResps ++ [⟨404, "Post Not Found"⟩], db)
    | .found authorID =>
      if authorID ≠ reqAuthorID then (identResps ++ [⟨403, "Forbidden"⟩], db)
      else if ¬titleOK ∨ ¬descOK then
        (identResps ++ [⟨400, "Your post contains bad words"⟩], db)
      else (identResps ++ [⟨200, "Post Updated"⟩],
            UpdatePost db req.id req.categoryID req.title req.description)

/-- Model of the `deletePost` handler (post.go 487–517): id parse,
identity (response written but no return on failure), author lookup
with not-found and forbidden checks, then the delete transaction. -/
def deletePost (db : DB) (idOK : Bool) (postID : Int) (ident : Except String Int) :
    List Resp × DB :=
  if ¬idOK then ([⟨400, "Invalid Post ID"⟩], db)
  else
    let reqAuthorID := getUserIDAvoidPanic ident
    let identResps : List Resp :=
      match ident with
      | .error _ => [⟨400, "Your ID cann't read"⟩]
      | .ok _ => []
    match FetchAuthorIDByPostID db postID with
    | .notFoundErr => (identResps ++ [⟨404, "Post Not Found"⟩], db)
    | .found authorID =>
      if authorID ≠ reqAuthorID then (identResps ++ [⟨403, "Forbidden"⟩], db)
      else (identResps ++ [⟨200, "Post Deleted"⟩], (DeletePostByID db postID .noFailure).2)

/-- Outcomes of the `readPost` detail handler. -/
inductive ReadPostOut
  | badRequest (msg : String)
  | internalError
  | notFound
  | ok (body : DetailPostResponse)
  deriving DecidableEq, Repr

/-- Model of the `readPost` handler (post.go 347–442).  The boolean
oracles stand for driver failures of the three store calls;
`CountComment` and `CountPostLike` (whose sources are outside this
file) are modelled as the comment and like counts of the post. -/
def readPost (db : DB) (ident : Except String Int) (postID : Int)
    (fetchFails countCommentFails countLikeFails : Bool) : ReadPostOut :=
  let authorID := getUserIDAvoidPanic ident
  if fetchFails then .internalError
  else
    match FetchPostByID db postID authorID with
    | [] => .notFound
    | p0 :: rest =>
      if countCommentFails then .internalError
      else if countLikeFails then .internalError
      else
        let images : List PostImageResponse :=
          if p0.imageID.valid then
            (p0 :: rest).map fun r => { id := r.imageID.val, url := r.imagePath.string }
          else []
        .ok
          { post :=
              { id := p0.id
                isLike := p0.isLike
                isAuthor := decide (p0.authorID = authorID)
                author :=
                  { id := p0.authorID
                    name := p0.authorName
                    role := p0.authorRole
                    major := if p0.authorMajor.valid then p0.authorMajor.string else ""
                    institute :=
                      if p0.authorInstitution.valid then p0.authorInstitution.string else ""
                    batch := if p0.authorBatch.valid then p0.authorBatch.val else 0
                    profileImage := if p0.authorAvatar.valid then p0.authorAvatar.string else "" }
                categoryID := p0.categoryID
                title := p0.title
                description := p0.description
                createdAt := p0.createdAt
                commentCount := commentCountOf db postID
                likeCount := likeCountOf db postID }
            images := images }

/-- Outcomes of the `readPosts` list handler. -/
inductive ReadPostsOut
  | badRequest (msg : String)
  | internalError
  | okEmpty
  | ok (body : List DetailPostResponse)
  deriving DecidableEq, Repr

/-- Model of the `readPosts` handler (post.go 198–264 plus the
assembly): the identity resolved through the panic-swallowing wrapper,
the sort_by switch, the filter string built as its structured
counterpart, then the store query and the feed assembly.  `storeFails`
is the driver failure oracle; an empty row set is answered with the
empty-array success, as in the Go early return. -/
def readPosts (db : DB) (ident : Except String Int) (sortByParam : Option String)
    (searchTitle : String) (categoryID : Int) (me : Bool) (limit offset : Int)
    (storeFails : Bool) : ReadPostsOut :=
  let authorID := getUserIDAvoidPanic ident
  match parseSortBy sortByParam with
  | .invalid => .badRequest "Invalid Sort By"
  | .ok orderBy =>
    let f : PostFilter :=
      { searchTitle := if searchTitle ≠ "" then some searchTitle else none
        categoryID := if categoryID ≠ 0 then some categoryID else none
        meAuthorID := if me then some authorID else none }
    if storeFails then .internalError
    else
      let posts := FetchAllPost db limit offset authorID orderBy f
      if posts.isEmpty then .okEmpty
      else .ok (readPostsAssemble authorID posts)

/-- Model of `repository.User` as the questionnaire handlers use it. -/
structure QUser where
  id : Int
  deriving DecidableEq, Repr, Inhabited

/-- Model of `repository.Category` as the questionnaire handlers use
it. -/
structure QCategory where
  id : Int
  deriving DecidableEq, Repr, Inhabited

/-- Model of `repository.Questionnaire` (the fields the handlers
touch).  Its default value plays the role of Go's zero
`repository.Questionnaire{}`. -/
structure Questionnaire where
  id : Int
  author : QUser
  category : QCategory
  title : String
  description : String
  link : String
  reward : String
  deriving DecidableEq, Repr, Inhabited

/-- Go's zero value `repository.Questionnaire{}`. -/
def emptyQuestionnaire : Questionnaire :=
  { id := 0, author := ⟨0⟩, category := ⟨0⟩, title := "", description := "",
    link := "", reward := "" }

/-- Modelled from the spec: `questionnaireRepo.ReadAllQuestionnaireByID`
(source not under src) — the detail query for one questionnaire;
not-found is represented as an empty result, which the handler sees as
the zero value.  The viewer id only personalizes viewer flags, not
selection. -/
def ReadAllQuestionnaireByID (qdb : List Questionnaire) (_viewerID postID : Int) :
    Questionnaire :=
  (qdb.find? fun q => decide (q.id = postID)).getD emptyQuestionnaire

/-- Model of `api.UpdateQuestionnaireRequest`. -/
structure UpdateQuestionnaireRequest where
  id : Int
  categoryID : Int
  title : String
  description : String
  link : String
  reward : String
  deriving DecidableEq, Repr, Inhabited

/-- Modelled from the spec: `questionnaireRepo.UpdateQuestionnaire`
(source not under src) — replace the stored fields of the
questionnaire with the request's id, keeping its author. -/
def UpdateQuestionnaireRepo (qdb : List Questionnaire) (q : Questionnaire) :
    List Questionnaire :=
  qdb.map fun q0 => if q0.id = q.id then { q with author := q0.author } else q0

/-- Modelled from the spec: `questionnaireRepo.DeleteQuestionnaire`
(source not under src) — remove the questionnaire rows with the id. -/
def DeleteQuestionnaireRepo (qdb : List Questionnaire) (postID : Int) :
    List Questionnaire :=
  qdb.filter fun q => decide (¬ q.id = postID)

/-- Model of the `UpdateQuestionnaire` handler (part_000 lines
208–290): bind, moderation, identity (with return on failure), zero-value
absence check, ownership check, then the update. -/
def UpdateQuestionnaire (qdb : List Questionnaire) (bindOK titleOK descOK : Bool)
    (ident : Except String Int) (req : UpdateQuestionnaireRequest) :
    List Resp × List Questionnaire :=
  if ¬bindOK then ([⟨400, "binding error"⟩], qdb)
  else if ¬titleOK ∨ ¬descOK then ([⟨400, "Your post contains bad words"⟩], qdb)
  else
    match ident with
    | .error e => ([⟨400, e⟩], qdb)
    | .ok userID =>
      let q := ReadAllQuestionnaireByID qdb userID req.id
      if q = emptyQuestionnaire then ([⟨400, "No data with given id"⟩], qdb)
      else if q.author.id ≠ userID then ([⟨403, "You are not the owner"⟩], qdb)
      else ([⟨200, "Update Questionnaire Successful"⟩],
            UpdateQuestionnaireRepo qdb
              { id := req.id, author := ⟨0⟩, category := ⟨req.categoryID⟩,
                title := req.title, description := req.description,
                link := req.link, reward := req.reward })

/-- Model of the `DeleteQuestionnaire` handler (part_000 lines
292–343): id parse, identity (with return on failure), zero-value
absence check, ownership check, then the delete. -/
def DeleteQuestionnaire (qdb : List Questionnaire) (idOK : Bool)
    (ident : Except String Int) (postID : Int) : List Resp × List Questionnaire :=
  if ¬idOK then ([⟨400, "id should be a int"⟩], qdb)
  else
    match ident with
    | .error e => ([⟨400, e⟩], qdb)
    | .ok userID =>
      let q := ReadAllQuestionnaireByID qdb userID postID
      if q = emptyQuestionnaire then ([⟨400, "No data with given id"⟩], qdb)
      else if q.author.id ≠ userID then ([⟨403, "You are not the owner"⟩], qdb)
      else ([⟨200, "Delete Questionnaire Successful"⟩], DeleteQuestionnaireRepo qdb postID)

/-- What the questionnaire list handler does with a request: a
rejection, or the repo call it would make (that repo's source is not
under src). -/
inductive QListOut
  | badRequest (msg : String)
  | proceed (userID : Int) (meAuthor : Option Int) (orderBy : String)
  deriving DecidableEq, Repr

/-- Model of `ReadAllQuestionnaires` (part_000 lines 34–101): sort_by
switch, filters, then the me=true identity requirement: -1 is the
anonymous sentinel, replaced only when an Authorization header is
present and resolves. -/
def ReadAllQuestionnaires (hasAuthHeader : Bool) (ident : Except String Int)
    (sortByParam : Option String) (categoryOK : Bool) (me : Bool) : QListOut :=
  match parseSortByQuestionnaire sortByParam with
  | .invalid => .badRequest "Invalid Sort By"
  | .ok orderBy =>
    if ¬categoryOK then .badRequest "Invalid Filter By Category ID"
    else if hasAuthHeader then
      match ident with
      | .error e => .badRequest e
      | .ok userID =>
        if me then
          if userID ≠ -1 then .proceed userID (some userID) orderBy
          else .badRequest "invalid token"
        else .proceed userID none orderBy
    else
      if me then .badRequest "invalid token"
      else .proceed (-1) none orderBy

/-- One file of an upload request, with the fate of its two phases:
`storeOk` covers open/create/copy (all before the mutex), `insertOk`
the `InsertPostImage` call under the mutex. -/
structure FileUnit where
  path : String
  storeOk : Bool
  insertOk : Bool
  deriving DecidableEq, Repr, Inhabited

/-- State of the fan-out upload: records written so far, whether a
goroutine returned while still holding the mutex, and whether some
unit is blocked forever (so `wg.Wait` never returns). -/
structure UploadState where
  records : List (Int × String)
  mutexStuck : Bool
  hung : Bool
  deriving DecidableEq, Repr, Inhabited

/-- One unit of `uploadPostImages` (post.go 145–191), in mutex
acquisition order: a unit whose store phase fails returns before the
lock; a unit that finds the mutex abandoned blocks forever; a unit
whose insert fails returns without unlocking. -/
def uploadStep (postID : Int) (st : UploadState) (f : FileUnit) : UploadState :=
  if ¬f.storeOk then st
  else if st.mutexStuck then { st with hung := true }
  else if f.insertOk then { st with records := st.records ++ [(postID, f.path)] }
  else { st with mutexStuck := true }

/-- Model of `uploadPostImages` (post.go 118–196): the per-file
goroutines, serialized in the order they acquire the record mutex
(`files` lists them in that order). -/
def uploadPostImages (postID : Int) (files : List FileUnit) : UploadState :=
  files.foldl (uploadStep postID) ⟨[], false, false⟩

/-- The distinct elements of an integer list, first occurrences in
order, skipping those already `seen`. -/
def dedupIDsAvoiding (seen : List Int) : List Int → List Int
  | [] => []
  | x :: xs =>
    if x ∈ seen then dedupIDsAvoiding seen xs
    else x :: dedupIDsAvoiding (x :: seen) xs

/-- Does a list response consist only of entries authored by the given
user? -/
def allAuthoredBy (uid : Int) : ReadPostsOut → Bool
  | .ok body => body.all fun e => decide (e.post.author.id = uid)
  | _ => false

/-- Does a detail response carry an empty image list? -/
def okWithEmptyImages : ReadPostOut → Bool
  | .ok body => body.images.isEmpty
  | _ => false

/-- A one-post database used by concrete checks: post 1 authored by
user 7, no images. -/
def dbOnePost : DB :=
  { posts := [⟨1, 7, 2, "t", "d", 5⟩],
    users := [⟨7, "eve", "member", ⟨false, ""⟩⟩],
    userDetails := [], comments := [], postLikes := [],
    questionnaires := [], postImages := [] }

/-- The single feed entry `readPosts` produces for `dbOnePost` when
user 7 lists their own posts. -/
def entryOnePost : DetailPostResponse :=
  { post :=
      { id := 1, isLike := false, isAuthor := true,
        author := { id := 7, name := "eve", role := "member", institute := "",
                    major := "", batch := 0, profileImage := "" },
        categoryID := 2, title := "t", description := "d", createdAt := 5,
        commentCount := 0, likeCount := 0 }
    images := [] }

/-- A two-post database with images, for concrete pagination and
delete checks. -/
def dbTwoPosts : DB :=
  { posts := [⟨1, 7, 2, "t", "d", 5⟩, ⟨2, 8, 2, "u", "e", 6⟩],
    users := [⟨7, "eve", "member", ⟨false, ""⟩⟩, ⟨8, "bob", "member", ⟨false, ""⟩⟩],
    userDetails := [], comments := [], postLikes := [],
    questionnaires := [],
    postImages := [⟨21, 1, "a"⟩, ⟨22, 1, "b"⟩, ⟨23, 2, "c"⟩] }

/-- A one-questionnaire store: questionnaire 1 owned by user 7. -/
def qdbOne : List Questionnaire :=
  [{ id := 1, author := ⟨7⟩, category := ⟨2⟩, title := "t", description := "d",
     link := "l", reward := "" }]

theorem assocFind_isSome_iff {β : Type} (k : Int) (l : List (Int × β)) :
    (assocFind k l).isSome = true ↔ k ∈ l.map Prod.fst := by
  induction l with
  | nil => simp [assocFind]
  | cons p rest ih =>
    obtain ⟨k', v⟩ := p
    by_cases h : k' = k
    · simp [assocFind, h]
    · have h' : ¬ k = k' := fun hk => h hk.symm
      simp [assocFind, h, h', ih]

theorem firstRowsAvoiding_congr (rows : List PostDetail) :
    ∀ s s' : List Int, (∀ x, x ∈ s ↔ x ∈ s') →
      firstRowsAvoiding s rows = firstRowsAvoiding s' rows := by
  induction rows with
  | nil => intro s s' _; rfl
  | cons r rest ih =>
    intro s s' h
    simp only [firstRowsAvoiding]
    by_cases hm : r.id ∈ s
    · rw [if_pos hm, if_pos ((h r.id).1 hm)]
      exact ih s s' h
    · rw [if_neg hm, if_neg (fun hc => hm ((h r.id).2 hc))]
      rw [ih (r.id :: s) (r.id :: s') (by intro x; simp [h x])]

theorem buildDetail_eq (a : Int) (rows : List PostDetail) :
    ∀ (detail : List (Int × PostResponse)) (queue : List Int),
      queue = detail.map Prod.fst →
      buildDetail a queue detail rows =
        (queue ++ (firstRowsAvoiding (detail.map Prod.fst) rows).map (·.id),
         detail ++ (firstRowsAvoiding (detail.map Prod.fst) rows).map
           (fun r => (r.id, mkPostResponse a r))) := by
  induction rows with
  | nil => intro detail queue hq; simp [buildDetail, firstRowsAvoiding]
  | cons post rest ih =>
    intro detail queue hq
    by_cases hmem : post.id ∈ detail.map Prod.fst
    · have hs : (assocFind post.id detail).isSome = true :=
        (assocFind_isSome_iff _ _).2 hmem
      rw [buildDetail, if_pos hs, firstRowsAvoiding, if_pos hmem]
      exact ih detail queue hq
    · have hs : ¬ (assocFind post.id detail).isSome = true := by
        rw [assocFind_isSome_iff]; exact hmem
      have hqcond : queue = [] ∨ queue.getLast? ≠ some post.id := by
        by_cases hnil : queue = []
        · exact Or.inl hnil
        · refine Or.inr fun hlast => hmem ?_
          have hin : post.id ∈ queue := List.mem_of_mem_getLast? hlast
          rwa [hq] at hin
      rw [buildDetail, if_neg hs, firstRowsAvoiding, if_neg hmem]
      simp only [if_pos hqcond]
      have hq' : queue ++ [post.id] =
          (detail ++ [(post.id, mkPostResponse a post)]).map Prod.fst := by
        simp [hq]
      rw [ih (detail ++ [(post.id, mkPostResponse a post)]) (queue ++ [post.id]) hq']
      rw [firstRowsAvoiding_congr rest
        ((detail ++ [(post.id, mkPostResponse a post)]).map Prod.fst)
        (post.id :: detail.map Prod.fst) (by intro x; simp; tauto)]
      simp

theorem mem_of_mem_firstRowsAvoiding (rows : List PostDetail) :
    ∀ seen r, r ∈ firstRowsAvoiding seen rows → r ∈ rows := by
  induction rows with
  | nil => intro seen r h; simp [firstRowsAvoiding] at h
  | cons r0 rest ih =>
    intro seen r h
    simp only [firstRowsAvoiding] at h
    by_cases hm : r0.id ∈ seen
    · rw [if_pos hm] at h
      exact List.mem_cons_of_mem _ (ih _ _ h)
    · rw [if_neg hm] at h
      rcases List.mem_cons.1 h with h | h
      · exact h ▸ List.mem_cons_self _ _
      · exact List.mem_cons_of_mem _ (ih _ _ h)

theorem firstRowsAvoiding_ids_nodup (rows : List PostDetail) :
    ∀ seen, ((firstRowsAvoiding seen rows).map (·.id)).Nodup ∧
      ∀ i ∈ (firstRowsAvoiding seen rows).map (·.id), i ∉ seen := by
  induction rows with
  | nil => intro seen; simp [firstRowsAvoiding]
  | cons r rest ih =>
    intro seen
    simp only [firstRowsAvoiding]
    by_cases hm : r.id ∈ seen
    · rw [if_pos hm]; exact ih seen
    · rw [if_neg hm]
      obtain ⟨hnd, hns⟩ := ih (r.id :: seen)
      refine ⟨?_, ?_⟩
      · simp only [List.map_cons, List.nodup_cons]
        exact ⟨fun hc => (hns _ hc) (List.mem_cons_self _ _), hnd⟩
      · intro i hi
        simp only [List.map_cons, List.mem_cons] at hi
        rcases hi with rfl | hi
        · exact hm
        · exact fun hiseen => hns i hi (List.mem_cons_of_mem _ hiseen)

theorem assocFind_keyed_map {β : Type} (g : PostDetail → β) :
    ∀ (rs : List PostDetail), ((rs.map (·.id)).Nodup) → ∀ r ∈ rs,
      assocFind r.id (rs.map fun r' => (r'.id, g r')) = some (g r) := by
  intro rs
  induction rs with
  | nil => intro _ r hr; simp at hr
  | cons r0 rest ih =>
    intro hnd r hr
    simp only [List.map_cons, List.nodup_cons] at hnd
    obtain ⟨hnotin, hnd'⟩ := hnd
    rcases List.mem_cons.1 hr with rfl | hr'
    · simp [assocFind]
    · have hne : r0.id ≠ r.id := by
        intro he
        exact hnotin (he ▸ (List.mem_map.2 ⟨r, hr', rfl⟩))
      simp only [List.map_cons, assocFind, if_neg hne]
      exact ih hnd' r hr'

theorem assocFind_append {β : Type} (k : Int) (l l' : List (Int × β)) :
    assocFind k (l ++ l') =
      match assocFind k l with
      | some v => some v
      | none => assocFind k l' := by
  induction l with
  | nil => simp [assocFind]
  | cons p rest ih =>
    obtain ⟨k', v⟩ := p
    by_cases h : k' = k <;> simp [assocFind, h, ih]

theorem assocFind_assocUpdate {β : Type} (k k' : Int) (f : β → β) (l : List (Int × β)) :
    assocFind k (assocUpdate k' f l) =
      if k' = k then (assocFind k l).map f else assocFind k l := by
  induction l with
  | nil => simp [assocFind, assocUpdate]
  | cons p rest ih =>
    obtain ⟨k0, v⟩ := p
    by_cases h0 : k0 = k'
    · subst h0
      by_cases hk : k0 = k
      · subst hk; simp [assocFind, assocUpdate]
      · simp [assocFind, assocUpdate, hk]
    · by_cases hk : k0 = k
      · subst hk
        have hne : ¬ k' = k0 := fun he => h0 he.symm
        simp [assocFind, assocUpdate, h0, hne]
      · simp [assocFind, assocUpdate, h0, hk, ih]

theorem imagesForID_cons (pid : Int) (post : PostDetail) (rest : List PostDetail) :
    imagesForID pid (post :: rest) =
      (if post.id = pid ∧ post.imageID.valid then
        [{ id := post.imageID.val, url := post.imagePath.string }] else []) ++
      imagesForID pid rest := by
  by_cases h : post.id = pid ∧ post.imageID.valid <;>
    simp [imagesForID, List.filterMap_cons, h]

theorem buildImagesAux_find_some (pid : Int) :
    ∀ (rows : List PostDetail) (m : List (Int × List PostImageResponse))
      (l : List PostImageResponse),
      assocFind pid m = some l →
      assocFind pid (buildImagesAux m rows) = some (l ++ imagesForID pid rows) := by
  intro rows
  induction rows with
  | nil => intro m l h; simp [buildImagesAux, imagesForID, h]
  | cons post rest ih =>
    intro m l h
    rw [buildImagesAux, imagesForID_cons]
    by_cases hid : post.id = pid
    · subst hid
      have hsome : (assocFind post.id m).isSome = true := by rw [h]; rfl
      by_cases hv : post.imageID.valid
      · have hstep : assocFind post.id (imagesStep m post) =
            some (l ++ [{ id := post.imageID.val, url := post.imagePath.string }]) := by
          unfold imagesStep
          rw [if_pos hsome, if_pos hv, assocFind_assocUpdate, if_pos rfl, h]
          rfl
        rw [ih _ _ hstep]
        simp [hv]
      · have hstep : assocFind post.id (imagesStep m post) = some l := by
          unfold imagesStep
          rw [if_pos hsome, if_neg hv]
          exact h
        rw [ih _ _ hstep]
        simp [hv]
    · have hstep : assocFind pid (imagesStep m post) = some l := by
        unfold imagesStep
        by_cases hsome : (assocFind post.id m).isSome = true
        · rw [if_pos hsome]
          by_cases hv : post.imageID.valid
          · rw [if_pos hv, assocFind_assocUpdate, if_neg hid, h]
          · rw [if_neg hv]; exact h
        · rw [if_neg hsome]
          by_cases hv : post.imageID.valid
          · rw [if_pos hv, assocFind_assocUpdate, if_neg hid, assocFind_append, h]
          · rw [if_neg hv, assocFind_append, h]
      rw [ih _ _ hstep]
      simp [hid]

theorem buildImagesAux_find_new (pid : Int) :
    ∀ (rows : List PostDetail) (m : List (Int × List PostImageResponse)),
      assocFind pid m = none → pid ∈ rows.map (·.id) →
      assocFind pid (buildImagesAux m rows) = some (imagesForID pid rows) := by
  intro rows
  induction rows with
  | nil => intro m h hm; simp at hm
  | cons post rest ih =>
    intro m h hm
    rw [buildImagesAux, imagesForID_cons]
    by_cases hid : post.id = pid
    · subst hid
      have hnone : ¬ (assocFind post.id m).isSome = true := by rw [h]; simp
      have hfind : assocFind post.id (m ++ [(post.id, [])]) = some [] := by
        rw [assocFind_append, h]; simp [assocFind]
      by_cases hv : post.imageID.valid
      · have hstep : assocFind post.id (imagesStep m post) =
            some [{ id := post.imageID.val, url := post.imagePath.string }] := by
          unfold imagesStep
          rw [if_neg hnone, if_pos hv, assocFind_assocUpdate, if_pos rfl, hfind]
          rfl
        rw [buildImagesAux_find_some post.id rest _ _ hstep]
        simp [hv]
      · have hstep : assocFind post.id (imagesStep m post) = some [] := by
          unfold imagesStep
          rw [if_neg hnone, if_neg hv]
          exact hfind
        rw [buildImagesAux_find_some post.id rest _ _ hstep]
        simp [hv]
    · have hm' : pid ∈ rest.map (·.id) := by
        simp only [List.map_cons, List.mem_cons] at hm
        rcases hm with hm | hm
        · exact absurd hm.symm hid
        · exact hm
      have hstep : assocFind pid (imagesStep m post) = none := by
        unfold imagesStep
        by_cases hsome : (assocFind post.id m).isSome = true
        · rw [if_pos hsome]
          by_cases hv : post.imageID.valid
          · rw [if_pos hv, assocFind_assocUpdate, if_neg hid, h]
          · rw [if_neg hv]; exact h
        · rw [if_neg hsome]
          by_cases hv : post.imageID.valid
          · rw [if_pos hv, assocFind_assocUpdate, if_neg hid, assocFind_append, h]
            simp [assocFind, hid]
          · rw [if_neg hv, assocFind_append, h]
            simp [assocFind, hid]
      rw [ih _ hstep hm']
      simp [hid]

theorem readPostsAssemble_eq_spec (a : Int) (rows : List PostDetail) :
    readPostsAssemble a rows = specAssemble a rows := by
  unfold readPostsAssemble specAssemble
  rw [buildDetail_eq a rows [] [] rfl]
  simp only [List.map_nil, List.nil_append, List.map_map]
  apply List.map_congr_left
  intro r hr
  have hnd := (firstRowsAvoiding_ids_nodup rows []).1
  have h1 : assocFind r.id
      ((firstRowsAvoiding [] rows).map fun r' => (r'.id, mkPostResponse a r')) =
      some (mkPostResponse a r) :=
    assocFind_keyed_map _ _ hnd r hr
  have hrmem : r ∈ rows := mem_of_mem_firstRowsAvoiding rows [] r hr
  have hidmem : r.id ∈ rows.map (·.id) := List.mem_map.2 ⟨r, hrmem, rfl⟩
  have h2 : assocFind r.id (buildImages rows) = some (imagesForID r.id rows) :=
    buildImagesAux_find_new r.id rows [] rfl hidmem
  simp only [buildImages] at h2
  simp [Function.comp, buildImages, h1, h2]

/-- C1: for every row sequence, the `readPosts` feed assembler produces
exactly one entry per distinct post id in first-appearance order, with
scalar fields from the id's first row, one image per image-bearing row
in row order, and an empty (not absent) image list for a post with no
image rows; in particular rows `[(post 1, A), (post 1, B), (post 2, null)]`
assemble to `[{post 1, images [A, B]}, {post 2, images []}]`. -/
theorem C1_feed_assembly_grouping :
    (∀ (authorID : Int) (rows : List PostDetail),
        readPostsAssemble authorID rows = specAssemble authorID rows) ∧
    readPostsAssemble 0 [exRow1, exRow2, exRow3] =
      [{ post := mkPostResponse 0 exRow1,
         images := [{ id := 100, url := "A" }, { id := 101, url := "B" }] },
       { post := mkPostResponse 0 exRow3, images := [] }] :=
  ⟨readPostsAssemble_eq_spec, by decide⟩

/-- C7: `sort_by` maps newest (also the default) to created-at
descending, oldest to created-at ascending, most_liked to like-count
descending, most_commented to comment-count descending, and every
other value is rejected by both list handlers with no silent default. -/
theorem C7_sort_by_mapping :
    (parseSortBy none = .ok "created_at DESC" ∧
     parseSortBy (some "newest") = .ok "created_at DESC" ∧
     parseSortBy (some "oldest") = .ok "created_at" ∧
     parseSortBy (some "most_liked") = .ok "like_count DESC" ∧
     parseSortBy (some "most_commented") = .ok "comment_count DESC") ∧
    (cmpOfOrderBy "created_at DESC" = fun x y => decide (y.createdAt ≤ x.createdAt)) ∧
    (cmpOfOrderBy "created_at" = fun x y => decide (x.createdAt ≤ y.createdAt)) ∧
    (cmpOfOrderBy "like_count DESC" = fun x y => decide (y.likeCount ≤ x.likeCount)) ∧
    (cmpOfOrderBy "comment_count DESC" = fun x y => decide (y.commentCount ≤ x.commentCount)) ∧
    (parseSortByQuestionnaire none = .ok "created_at DESC" ∧
     parseSortByQuestionnaire (some "most_liked") = .ok "total_like DESC" ∧
     parseSortByQuestionnaire (some "most_commented") = .ok "total_comment DESC") ∧
    (∀ s : String, s ≠ "newest" → s ≠ "oldest" → s ≠ "most_liked" → s ≠ "most_commented" →
      parseSortBy (some s) = .invalid ∧ parseSortByQuestionnaire (some s) = .invalid) := by
  refine ⟨⟨rfl, rfl, rfl, rfl, rfl⟩, rfl, rfl, rfl, rfl, ⟨rfl, rfl, rfl⟩, ?_⟩
  intro s h1 h2 h3 h4
  constructor
  · unfold parseSortBy
    simp only [Option.getD_some]
  · unfold parseSortByQuestionnaire
    simp only [Option.getD_some]

/-- Witness for C7 at the concrete rejected value "latest". -/
theorem C7_sort_by_mapping_witness :
    parseSortBy (some "latest") = .invalid ∧
      parseSortByQuestionnaire (some "latest") = .invalid :=
  C7_sort_by_mapping.2.2.2.2.2.2 "latest"
    (by decide) (by decide) (by decide) (by decide)

/-- C10: for every post id and path, once Begin succeeds,
`InsertPostImage` returns nil even when the INSERT or the commit
fails — the failure branches return the earlier (nil) begin error, so
an image-record insert failure is never reported to the caller. -/
theorem C10_insertPostImage_swallows_failures :
    ∀ execErr commitErr : Option String,
      InsertPostImage none execErr commitErr = none := by
  intro execErr commitErr
  unfold InsertPostImage
  cases execErr <;> cases commitErr <;> rfl

/-- C8: deleting a post removes the post row and every image row
referencing it within one transaction: after a successful delete no
image row for that id remains (and exactly the other images survive);
on a failure at any step the transaction rolls back and neither the
post nor its images are removed; the invariant that every image
references an existing post is preserved. -/
theorem C8_delete_cascades_images_atomically :
    ∀ (db : DB) (pid : Int) (fp : DeleteFailPoint),
      (fp = .noFailure →
        (DeletePostByID db pid fp).1 = none ∧
        ((DeletePostByID db pid fp).2.postImages.filter
          fun im => decide (im.postID = pid)) = [] ∧
        ((DeletePostByID db pid fp).2.posts.filter fun p => decide (p.id = pid)) = [] ∧
        (DeletePostByID db pid fp).2.postImages =
          db.postImages.filter fun im => decide (¬ im.postID = pid)) ∧
      (fp ≠ .noFailure →
        (DeletePostByID db pid fp).2 = db ∧ (DeletePostByID db pid fp).1 ≠ none) ∧
      ((∀ im ∈ db.postImages, im.postID ∈ db.posts.map (·.id)) →
        ∀ im ∈ (DeletePostByID db pid fp).2.postImages,
          im.postID ∈ (DeletePostByID db pid fp).2.posts.map (·.id)) := by
  intro db pid fp
  refine ⟨?_, ?_, ?_⟩
  · rintro rfl
    refine ⟨rfl, ?_, ?_, rfl⟩
    · simp [DeletePostByID, List.filter_filter]
    · simp [DeletePostByID, List.filter_filter]
  · intro hne
    cases fp with
    | noFailure => exact absurd rfl hne
    | atBegin => exact ⟨rfl, by simp [DeletePostByID]⟩
    | atDeletePosts => exact ⟨rfl, by simp [DeletePostByID]⟩
    | atDeleteImages => exact ⟨rfl, by simp [DeletePostByID]⟩
    | atCommit => exact ⟨rfl, by simp [DeletePostByID]⟩
  · intro hinv im him
    cases fp with
    | noFailure =>
      simp only [DeletePostByID] at him ⊢
      rw [List.mem_filter] at him
      obtain ⟨him', hne⟩ := him
      have hmem := hinv im him'
      rw [List.mem_map] at hmem
      obtain ⟨p, hp, hpid⟩ := hmem
      rw [List.mem_map]
      refine ⟨p, ?_, hpid⟩
      rw [List.mem_filter]
      refine ⟨hp, ?_⟩
      simp only [decide_eq_true_eq] at hne ⊢
      rw [hpid]; exact hne
    | atBegin => exact hinv im him
    | atDeletePosts => exact hinv im him
    | atDeleteImages => exact hinv im him
    | atCommit => exact hinv im him

/-- Witness for C8 on a concrete database: a successful delete of post
1 removes its two images and keeps post 2's image, a commit failure
leaves the database unchanged, and the surviving image still
references an existing post. -/
theorem C8_delete_cascades_images_atomically_witness :
    ((DeletePostByID dbTwoPosts 1 DeleteFailPoint.noFailure).1 = none ∧
     ((DeletePostByID dbTwoPosts 1 DeleteFailPoint.noFailure).2.postImages.filter
       fun im => decide (im.postID = 1)) = [] ∧
     ((DeletePostByID dbTwoPosts 1 DeleteFailPoint.noFailure).2.posts.filter
       fun p => decide (p.id = 1)) = [] ∧
     (DeletePostByID dbTwoPosts 1 DeleteFailPoint.noFailure).2.postImages =
       dbTwoPosts.postImages.filter fun im => decide (¬ im.postID = 1)) ∧
    ((DeletePostByID dbTwoPosts 1 DeleteFailPoint.atCommit).2 = dbTwoPosts ∧
     (DeletePostByID dbTwoPosts 1 DeleteFailPoint.atCommit).1 ≠ none) ∧
    (PostImageRow.mk 23 2 "c").postID ∈
      (DeletePostByID dbTwoPosts 1 DeleteFailPoint.noFailure).2.posts.map (·.id) :=
  ⟨(C8_delete_cascades_images_atomically dbTwoPosts 1 .noFailure).1 rfl,
   (C8_delete_cascades_images_atomically dbTwoPosts 1 .atCommit).2.1 (by decide),
   (C8_delete_cascades_images_atomically dbTwoPosts 1 .noFailure).2.2
     (by decide) (PostImageRow.mk 23 2 "c") (by decide)⟩

/-- C5: a detail request for a nonexistent id is answered with the
not-found response; an existing id with zero images is answered with
success carrying an empty image list; a store failure is answered with
the internal error — three distinct outcomes, never conflated. -/
theorem C5_detail_notfound_vs_empty_images :
    ∀ (db : DB) (ident : Except String Int) (postID : Int),
      (∀ c l : Bool, readPost db ident postID true c l = .internalError) ∧
      (postID ∉ db.posts.map (·.id) →
        readPost db ident postID false false false = .notFound) ∧
      (∀ p u, db.posts.filter (fun q => decide (q.id = postID)) = [p] →
        db.users.find? (fun u' => decide (u'.id = p.authorID)) = some u →
        db.postImages.filter (fun im => decide (im.postID = postID)) = [] →
        ∃ body, readPost db ident postID false false false = .ok body ∧
          body.images = []) := by
  intro db ident postID
  refine ⟨fun c l => rfl, ?_, ?_⟩
  · intro hnot
    have hnil : db.posts.filter (fun p => decide (p.id = postID)) = [] := by
      rw [List.filter_eq_nil_iff]
      intro p hp
      simp only [decide_eq_true_eq]
      exact fun he => hnot (List.mem_map.2 ⟨p, hp, he⟩)
    simp [readPost, FetchPostByID, hnil]
  · intro p u hp hu himg
    have hpid : p.id = postID := by
      have hmem : p ∈ db.posts.filter (fun q => decide (q.id = postID)) := by
        rw [hp]; simp
      simpa using (List.mem_filter.1 hmem).2
    have hb1 : detailRow db (getUserIDAvoidPanic ident) p =
        some (mkDetailBase db (getUserIDAvoidPanic ident) p u) := by
      unfold detailRow; rw [hu]; rfl
    have hfilterimg : db.postImages.filter
        (fun im => decide (im.postID = (mkDetailBase db (getUserIDAvoidPanic ident) p u).id))
          = [] := by
      show db.postImages.filter (fun im => decide (im.postID = p.id)) = []
      simp only [hpid]
      exact himg
    have hjoin : leftJoinImages db (mkDetailBase db (getUserIDAvoidPanic ident) p u) =
        [mkDetailBase db (getUserIDAvoidPanic ident) p u] := by
      unfold leftJoinImages
      rw [hfilterimg]
    have hfetch : FetchPostByID db postID (getUserIDAvoidPanic ident) =
        [mkDetailBase db (getUserIDAvoidPanic ident) p u] := by
      unfold FetchPostByID
      rw [hp]
      simp [List.filterMap_cons, hb1, hjoin]
    refine ⟨(fun b => DetailPostResponse.mk
        (PostResponse.mk b.id b.isLike (decide (b.authorID = getUserIDAvoidPanic ident))
          (AuthorPostResponse.mk b.authorID b.authorName b.authorRole
            (if b.authorInstitution.valid then b.authorInstitution.string else "")
            (if b.authorMajor.valid then b.authorMajor.string else "")
            (if b.authorBatch.valid then b.authorBatch.val else 0)
            (if b.authorAvatar.valid then b.authorAvatar.string else ""))
          b.categoryID b.title b.description b.createdAt
          (commentCountOf db postID) (likeCountOf db postID)) [])
        (mkDetailBase db (getUserIDAvoidPanic ident) p u), ?_, rfl⟩
    unfold readPost
    simp only [hfetch]
    rfl

/-- Witness for C5 on `dbOnePost`: a store failure yields the internal
error, id 2 yields not-found, and id 1 (which has no images) yields a
success whose image list is empty. -/
theorem C5_detail_notfound_vs_empty_images_witness :
    readPost dbOnePost (Except.ok 7) 1 true false false = .internalError ∧
    readPost dbOnePost (Except.ok 7) 2 false false false = .notFound ∧
    okWithEmptyImages (readPost dbOnePost (Except.ok 7) 1 false false false) = true := by
  refine ⟨(C5_detail_notfound_vs_empty_images dbOnePost (Except.ok 7) 1).1 false false,
    (C5_detail_notfound_vs_empty_images dbOnePost (Except.ok 7) 2).2.1 (by decide), ?_⟩
  obtain ⟨body, hbody, himgs⟩ :=
    (C5_detail_notfound_vs_empty_images dbOnePost (Except.ok 7) 1).2.2
      ⟨1, 7, 2, "t", "d", 5⟩ ⟨7, "eve", "member", ⟨false, ""⟩⟩
      (by decide) (by decide) (by decide)
  rw [hbody]
  simp [okWithEmptyImages, himgs]

/-- C3 (code bug): when the token cannot be resolved, each mutating
post handler writes its client error but does not return: createPost
still inserts a row with the sentinel author id 0 and writes a second,
success response, while updatePost and deletePost go on to perform the
ownership check against the sentinel identity 0 and answer it
(forbidden here). -/
theorem C3_mutations_proceed_after_identity_failure :
    createPost true true true (Except.error "no token") ⟨2, "t", "d"⟩ (Except.ok 1) =
      { responses := [⟨400, "Your ID cann't read"⟩, ⟨200, "Post Created"⟩],
        inserted := [(0, 2, "t", "d")] } ∧
    (updatePost dbOnePost true (Except.error "no token") true true ⟨1, 2, "t2", "d2"⟩).1 =
      [⟨400, "Your ID cann't read"⟩, ⟨403, "Forbidden"⟩] ∧
    (deletePost dbOnePost true 1 (Except.error "no token")).1 =
      [⟨400, "Your ID cann't read"⟩, ⟨403, "Forbidden"⟩] := by
  refine ⟨?_, ?_, ?_⟩ <;> decide

theorem uploadFold_all_ok (postID : Int) :
    ∀ (files : List FileUnit) (st : UploadState),
      (∀ f ∈ files, f.storeOk = true → f.insertOk = true) →
      st.mutexStuck = false →
      files.foldl (uploadStep postID) st =
        { records := st.records ++ (files.filter (·.storeOk)).map fun f => (postID, f.path),
          mutexStuck := false, hung := st.hung } := by
  intro files
  induction files with
  | nil =>
    intro st h hm
    cases st
    simp_all
  | cons f rest ih =>
    intro st h hm
    rw [List.foldl_cons]
    by_cases hs : f.storeOk = true
    · have hstep : uploadStep postID st f =
          { st with records := st.records ++ [(postID, f.path)] } := by
        unfold uploadStep
        rw [if_neg (by simp [hs]), if_neg (by simp [hm]),
          if_pos (h f (List.mem_cons_self f rest) hs)]
      rw [hstep, ih (⟨st.records ++ [(postID, f.path)], st.mutexStuck, st.hung⟩ : UploadState)
          (fun g hg => h g (List.mem_cons_of_mem f hg)) hm]
      simp [List.filter_cons, hs, List.append_assoc]
    · have hstep : uploadStep postID st f = st := by
        unfold uploadStep
        rw [if_pos hs]
      rw [hstep, ih _ (fun g hg => h g (List.mem_cons_of_mem f hg)) hm]
      simp [List.filter_cons, hs]

theorem uploadFold_stuck (postID : Int) :
    ∀ (files : List FileUnit) (st : UploadState),
      st.mutexStuck = true →
      files.foldl (uploadStep postID) st =
        { st with hung := st.hung || files.any (·.storeOk) } := by
  intro files
  induction files with
  | nil => intro st hm; cases st; simp
  | cons f rest ih =>
    intro st hm
    rw [List.foldl_cons]
    by_cases hs : f.storeOk = true
    · have hstep : uploadStep postID st f = { st with hung := true } := by
        unfold uploadStep
        rw [if_neg (by simp [hs]), if_pos hm]
      rw [hstep, ih (⟨st.records, st.mutexStuck, true⟩ : UploadState) hm]
      cases st
      simp [List.any_cons, hs]
    · have hstep : uploadStep postID st f = st := by
        unfold uploadStep
        rw [if_pos hs]
      rw [hstep, ih st hm]
      cases st
      simp [List.any_cons, hs]

/-- C9 (amended): each file is independent only through its storage
phase, and no sibling record is ever rolled back: when every failure
happens before the record step, all other files' records persist; but
when a file fails at the record step, the mutex is left locked, so
exactly the records serialized before the failure persist, every later
store-ok sibling blocks forever, and the request never completes. -/
theorem C9_upload_partial_failure_semantics :
    ∀ (postID : Int) (files : List FileUnit),
      ((∀ f ∈ files, f.storeOk = true → f.insertOk = true) →
        uploadPostImages postID files =
          { records := (files.filter (·.storeOk)).map fun f => (postID, f.path),
            mutexStuck := false, hung := false }) ∧
      (∀ pre bad rest, files = pre ++ bad :: rest →
        (∀ f ∈ pre, f.storeOk = true → f.insertOk = true) →
        bad.storeOk = true → bad.insertOk = false →
        uploadPostImages postID files =
          { records := (pre.filter (·.storeOk)).map fun f => (postID, f.path),
            mutexStuck := true, hung := rest.any (·.storeOk) }) := by
  intro postID files
  constructor
  · intro h
    unfold uploadPostImages
    rw [uploadFold_all_ok postID files _ h rfl]
    simp
  · rintro pre bad rest rfl hpre hbs hbi
    unfold uploadPostImages
    rw [List.foldl_append, uploadFold_all_ok postID pre _ hpre rfl, List.foldl_cons]
    have hstep : uploadStep postID
        { records := [] ++ (pre.filter (·.storeOk)).map fun f => (postID, f.path),
          mutexStuck := false, hung := false } bad =
        { records := [] ++ (pre.filter (·.storeOk)).map fun f => (postID, f.path),
          mutexStuck := true, hung := false } := by
      unfold uploadStep
      rw [if_neg (by simp [hbs]), if_neg (by simp), if_neg (by simp [hbi])]
    rw [hstep, uploadFold_stuck postID rest _ rfl]
    simp

/-- C9 counterexample: two files where exactly the first fails (at the
record step): the second file's record is never persisted — the
failing goroutine leaves the mutex locked, the sibling blocks forever
and the request never completes — refuting one-failure independence. -/
theorem C9_record_failure_starves_siblings :
    (uploadPostImages 1 [⟨"a", true, false⟩, ⟨"b", true, true⟩]).records = [] ∧
    (uploadPostImages 1 [⟨"a", true, false⟩, ⟨"b", true, true⟩]).hung = true :=
  ⟨rfl, rfl⟩

/-- Witness for C9 on concrete uploads: a store-phase failure leaves
the sibling's record intact, and a record-phase failure persists only
the records serialized before it while the later store-ok sibling
hangs. -/
theorem C9_upload_partial_failure_semantics_witness :
    uploadPostImages 1 [⟨"a", true, true⟩, ⟨"b", false, true⟩] =
      { records := [(1, "a")], mutexStuck := false, hung := false } ∧
    uploadPostImages 1 [⟨"a", true, true⟩, ⟨"c", true, false⟩, ⟨"b", true, true⟩] =
      { records := [(1, "a")], mutexStuck := true, hung := true } :=
  ⟨((C9_upload_partial_failure_semantics 1
      [⟨"a", true, true⟩, ⟨"b", false, true⟩]).1 (by decide)).trans (by decide),
   ((C9_upload_partial_failure_semantics 1
      [⟨"a", true, true⟩, ⟨"c", true, false⟩, ⟨"b", true, true⟩]).2
      [⟨"a", true, true⟩] ⟨"c", true, false⟩ [⟨"b", true, true⟩] rfl
      (by decide) rfl rfl).trans (by decide)⟩

theorem leftJoinImages_fields (db : DB) (base : PostDetail) :
    ∀ r ∈ leftJoinImages db base, r.id = base.id ∧ r.authorID = base.authorID := by
  intro r hr
  unfold leftJoinImages at hr
  split at hr
  · rw [List.mem_singleton] at hr
    subst hr
    exact ⟨rfl, rfl⟩
  · rw [List.mem_map] at hr
    obtain ⟨im, _, rfl⟩ := hr
    exact ⟨rfl, rfl⟩

theorem leftJoinImages_ne_nil (db : DB) (base : PostDetail) :
    leftJoinImages db base ≠ [] := by
  unfold leftJoinImages
  split
  · simp
  · rename_i imgs heq
    simp only [ne_eq, List.map_eq_nil_iff]
    intro hc
    exact heq (hc ▸ rfl)

theorem ite_ne_badRequest (c : Prop) [Decidable c] (x : List DetailPostResponse)
    (m : String) :
    (if c then ReadPostsOut.okEmpty else .ok x) ≠ .badRequest m := by
  by_cases h : c <;> simp [h]

theorem okBody_of_ite (a : Int) (rows : List PostDetail) (body : List DetailPostResponse)
    (h : (if rows.isEmpty then ReadPostsOut.okEmpty
          else .ok (readPostsAssemble a rows)) = .ok body) :
    body = readPostsAssemble a rows := by
  by_cases hrows : rows.isEmpty = true
  · rw [if_pos hrows] at h; cases h
  · rw [if_neg hrows] at h; cases h; rfl

theorem matchesFilter_me (f : PostFilter) (uid : Int) (row : PostDetail)
    (hf : f.meAuthorID = some uid) (h : matchesFilter f row = true) :
    row.authorID = uid := by
  unfold matchesFilter at h
  rw [hf] at h
  simp only [Bool.and_eq_true] at h
  exact of_decide_eq_true h.2

theorem pagedPosts_authorID (db : DB) (limit offset viewerID : Int) (orderBy : String)
    (f : PostFilter) (uid : Int) (hf : f.meAuthorID = some uid) :
    ∀ r ∈ pagedPosts db limit offset viewerID orderBy f, r.authorID = uid := by
  intro r hr
  unfold pagedPosts at hr
  have hr1 := List.mem_of_mem_drop (List.mem_of_mem_take hr)
  have hr2 := (List.perm_insertionSort
    (fun x y => cmpOfOrderBy orderBy x y = true) _).mem_iff.1 hr1
  have hr3 := (List.mem_filter.1 hr2).2
  rw [Bool.and_eq_true] at hr3
  exact matchesFilter_me f uid r hf hr3.2

theorem fetchAllPost_authorID (db : DB) (limit offset viewerID : Int) (orderBy : String)
    (f : PostFilter) (uid : Int) (hf : f.meAuthorID = some uid) :
    ∀ r ∈ FetchAllPost db limit offset viewerID orderBy f, r.authorID = uid := by
  intro r hr
  unfold FetchAllPost at hr
  rw [List.mem_flatMap] at hr
  obtain ⟨base, hbase, hrj⟩ := hr
  rw [(leftJoinImages_fields db base r hrj).2]
  exact pagedPosts_authorID db limit offset viewerID orderBy f uid hf base hbase

theorem readPostsAssemble_author (a : Int) (rows : List PostDetail)
    (h : ∀ r ∈ rows, r.authorID = a) :
    ∀ entry ∈ readPostsAssemble a rows, entry.post.author.id = a := by
  intro entry hentry
  rw [readPostsAssemble_eq_spec] at hentry
  unfold specAssemble at hentry
  rw [List.mem_map] at hentry
  obtain ⟨r, hr, rfl⟩ := hentry
  exact h r (mem_of_mem_firstRowsAvoiding rows [] r hr)

/-- C2 (amended): the questionnaire list handler rejects me=true
without a resolvable identity (no Authorization header, or a failed
resolution), but the post list handler does not: there the identity
failure is swallowed and the request is answered with the query
silently scoped to the sentinel author id 0; when identity resolution
succeeds, every entry of a me=true post listing is authored by the
caller. -/
theorem C2_me_requires_identity_amended :
    (∀ (db : DB) (e : String) (sortByParam : Option String) (orderBy : String)
        (searchTitle : String) (categoryID limit offset : Int),
      parseSortBy sortByParam = .ok orderBy →
      readPosts db (.error e) sortByParam searchTitle categoryID true limit offset false =
        readPosts db (.ok 0) sortByParam searchTitle categoryID true limit offset false ∧
      ∀ m, readPosts db (.error e) sortByParam searchTitle categoryID true limit offset
        false ≠ .badRequest m) ∧
    (∀ (db : DB) (uid : Int) (sortByParam : Option String) (searchTitle : String)
        (categoryID limit offset : Int) (body : List DetailPostResponse),
      readPosts db (.ok uid) sortByParam searchTitle categoryID true limit offset false =
        .ok body →
      ∀ entry ∈ body, entry.post.author.id = uid) ∧
    (∀ (ident : Except String Int) (sortByParam : Option String) (orderBy : String),
      parseSortByQuestionnaire sortByParam = .ok orderBy →
      ReadAllQuestionnaires false ident sortByParam true true =
        .badRequest "invalid token") ∧
    (∀ (e : String) (sortByParam : Option String) (orderBy : String) (me : Bool),
      parseSortByQuestionnaire sortByParam = .ok orderBy →
      ReadAllQuestionnaires true (.error e) sortByParam true me = .badRequest e) := by
  refine ⟨?_, ?_, ?_, ?_⟩
  · intro db e sortByParam orderBy searchTitle categoryID limit offset hparse
    refine ⟨rfl, ?_⟩
    intro m
    unfold readPosts
    simp only [hparse, Bool.false_eq_true, if_false]
    exact ite_ne_badRequest _ _ _
  · intro db uid sortByParam searchTitle categoryID limit offset body h entry hentry
    unfold readPosts at h
    cases hparse : parseSortBy sortByParam with
    | invalid => rw [hparse] at h; cases h
    | ok orderBy =>
      rw [hparse] at h
      simp only [Bool.false_eq_true, if_false] at h
      have hbody := okBody_of_ite _ _ _ h
      subst hbody
      refine readPostsAssemble_author _ _ ?_ entry hentry
      refine fetchAllPost_authorID db limit offset _ orderBy _ uid ?_
      simp [getUserIDAvoidPanic]
  · intro ident sortByParam orderBy hparse
    unfold ReadAllQuestionnaires
    simp only [hparse]
    rfl
  · intro e sortByParam orderBy me hparse
    unfold ReadAllQuestionnaires
    simp only [hparse]
    rfl

/-- C2 counterexample: a post-list request with me=true whose identity
resolution failed is answered with the empty-array success — the query
scoped to the sentinel author id 0 matches nothing in a store whose
only post belongs to user 7 — instead of being rejected with a client
error. -/
theorem C2_me_without_identity_not_rejected :
    readPosts dbOnePost (.error "no credential") (some "newest") "" 0 true 20 0 false =
      .okEmpty := by
  decide

/-- Witness for C2 on concrete requests: the identity-failure listing
equals its sentinel-scoped counterpart and is not a rejection, user
7's own listing contains only their posts, and both questionnaire
rejections fire. -/
theorem C2_me_requires_identity_amended_witness :
    (readPosts dbOnePost (.error "x") (some "newest") "" 0 true 20 0 false =
       readPosts dbOnePost (.ok 0) (some "newest") "" 0 true 20 0 false) ∧
    readPosts dbOnePost (.error "x") (some "newest") "" 0 true 20 0 false ≠
      .badRequest "Invalid Sort By" ∧
    entryOnePost.post.author.id = 7 ∧
    ReadAllQuestionnaires false (.ok 9) (some "newest") true true =
      .badRequest "invalid token" ∧
    ReadAllQuestionnaires true (.error "bad") (some "newest") true true =
      .badRequest "bad" := by
  have h1 := C2_me_requires_identity_amended.1 dbOnePost "x" (some "newest")
    "created_at DESC" "" 0 20 0 rfl
  refine ⟨h1.1, h1.2 "Invalid Sort By", ?_,
    C2_me_requires_identity_amended.2.2.1 (.ok 9) (some "newest") "created_at DESC" rfl,
    C2_me_requires_identity_amended.2.2.2 "bad" (some "newest") "created_at DESC" true rfl⟩
  exact C2_me_requires_identity_amended.2.1 dbOnePost 7 (some "newest") "" 0 20 0
    [entryOnePost] (by decide) entryOnePost (by simp)

/-- C6 counterexample: updating a nonexistent questionnaire (empty
store, id 3, resolved caller) is answered with a 400 client error
("No data with given id"), not the 404 not-found error that the
claim's uniform not-found contract names. -/
theorem C6_questionnaire_absence_not_404 :
    (UpdateQuestionnaire [] true true true (Except.ok 5) ⟨3, 2, "t", "d", "l", ""⟩).1 =
      [⟨400, "No data with given id"⟩] ∧
    ((UpdateQuestionnaire [] true true true (Except.ok 5) ⟨3, 2, "t", "d", "l", ""⟩).1.map
      (·.status)) ≠ [404] :=
  ⟨rfl, by decide⟩

/-- C6 (amended): for posts, a nonexistent target yields the 404
not-found error regardless of the (resolved) caller, taking precedence
over the forbidden check, and an existing target with a different
author yields 403 — in both cases without mutating the store; for
questionnaires the same precedence and non-mutation hold, but the
absence error is a 400 client error ("No data with given id") rather
than a 404. -/
theorem C6_notfound_precedence_over_forbidden :
    ∀ (db : DB) (qdb : List Questionnaire) (uid postID : Int)
      (req : UpdatePostRequest) (qreq : UpdateQuestionnaireRequest) (tOK dOK : Bool),
      (req.id ∉ db.posts.map (·.id) →
        updatePost db true (.ok uid) tOK dOK req = ([⟨404, "Post Not Found"⟩], db)) ∧
      (postID ∉ db.posts.map (·.id) →
        deletePost db true postID (.ok uid) = ([⟨404, "Post Not Found"⟩], db)) ∧
      (∀ p, db.posts.find? (fun q => decide (q.id = req.id)) = some p →
        p.authorID ≠ uid →
        updatePost db true (.ok uid) tOK dOK req = ([⟨403, "Forbidden"⟩], db)) ∧
      (∀ p, db.posts.find? (fun q => decide (q.id = postID)) = some p →
        p.authorID ≠ uid →
        deletePost db true postID (.ok uid) = ([⟨403, "Forbidden"⟩], db)) ∧
      (qreq.id ∉ qdb.map (·.id) →
        UpdateQuestionnaire qdb true true true (.ok uid) qreq =
          ([⟨400, "No data with given id"⟩], qdb)) ∧
      (postID ∉ qdb.map (·.id) →
        DeleteQuestionnaire qdb true (.ok uid) postID =
          ([⟨400, "No data with given id"⟩], qdb)) ∧
      (∀ q, qdb.find? (fun q0 => decide (q0.id = qreq.id)) = some q →
        q ≠ emptyQuestionnaire → q.author.id ≠ uid →
        UpdateQuestionnaire qdb true true true (.ok uid) qreq =
          ([⟨403, "You are not the owner"⟩], qdb)) ∧
      (∀ q, qdb.find? (fun q0 => decide (q0.id = postID)) = some q →
        q ≠ emptyQuestionnaire → q.author.id ≠ uid →
        DeleteQuestionnaire qdb true (.ok uid) postID =
          ([⟨403, "You are not the owner"⟩], qdb)) := by
  intro db qdb uid postID req qreq tOK dOK
  have hfindnone : ∀ (pid : Int), pid ∉ db.posts.map (·.id) →
      db.posts.find? (fun q => decide (q.id = pid)) = none := by
    intro pid hnot
    rw [List.find?_eq_none]
    intro p hp
    simp only [decide_eq_true_eq]
    exact fun he => hnot (List.mem_map.2 ⟨p, hp, he⟩)
  have hqfindnone : ∀ (pid : Int), pid ∉ qdb.map (·.id) →
      qdb.find? (fun q0 => decide (q0.id = pid)) = none := by
    intro pid hnot
    rw [List.find?_eq_none]
    intro q hq
    simp only [decide_eq_true_eq]
    exact fun he => hnot (List.mem_map.2 ⟨q, hq, he⟩)
  refine ⟨?_, ?_, ?_, ?_, ?_, ?_, ?_, ?_⟩
  · intro hnot
    simp [updatePost, FetchAuthorIDByPostID, hfindnone req.id hnot]
  · intro hnot
    simp [deletePost, FetchAuthorIDByPostID, hfindnone postID hnot]
  · intro p hfind hne
    simp [updatePost, FetchAuthorIDByPostID, hfind, getUserIDAvoidPanic, hne]
  · intro p hfind hne
    simp [deletePost, FetchAuthorIDByPostID, hfind, getUserIDAvoidPanic, hne]
  · intro hnot
    simp [UpdateQuestionnaire, ReadAllQuestionnaireByID, hqfindnone qreq.id hnot]
  · intro hnot
    simp [DeleteQuestionnaire, ReadAllQuestionnaireByID, hqfindnone postID hnot]
  · intro q hfind hqne hane
    simp [UpdateQuestionnaire, ReadAllQuestionnaireByID, hfind, hqne, hane]
  · intro q hfind hqne hane
    simp [DeleteQuestionnaire, ReadAllQuestionnaireByID, hfind, hqne, hane]

/-- Witness for C6 on concrete stores (post 1 owned by user 7,
questionnaire 1 owned by user 7, caller 5): nonexistent targets give
the absence errors before any ownership consideration, existing
foreign targets give the forbidden errors, and no state changes. -/
theorem C6_notfound_precedence_over_forbidden_witness :
    updatePost dbOnePost true (.ok 5) true true ⟨3, 2, "t", "d"⟩ =
      ([⟨404, "Post Not Found"⟩], dbOnePost) ∧
    deletePost dbOnePost true 3 (.ok 5) = ([⟨404, "Post Not Found"⟩], dbOnePost) ∧
    updatePost dbOnePost true (.ok 5) true true ⟨1, 2, "t", "d"⟩ =
      ([⟨403, "Forbidden"⟩], dbOnePost) ∧
    deletePost dbOnePost true 1 (.ok 5) = ([⟨403, "Forbidden"⟩], dbOnePost) ∧
    UpdateQuestionnaire qdbOne true true true (.ok 5) ⟨3, 2, "t", "d", "l", ""⟩ =
      ([⟨400, "No data with given id"⟩], qdbOne) ∧
    DeleteQuestionnaire qdbOne true (.ok 5) 3 =
      ([⟨400, "No data with given id"⟩], qdbOne) ∧
    UpdateQuestionnaire qdbOne true true true (.ok 5) ⟨1, 2, "t", "d", "l", ""⟩ =
      ([⟨403, "You are not the owner"⟩], qdbOne) ∧
    DeleteQuestionnaire qdbOne true (.ok 5) 1 =
      ([⟨403, "You are not the owner"⟩], qdbOne) :=
  ⟨(C6_notfound_precedence_over_forbidden dbOnePost qdbOne 5 3 ⟨3, 2, "t", "d"⟩
      ⟨3, 2, "t", "d", "l", ""⟩ true true).1 (by decide),
   (C6_notfound_precedence_over_forbidden dbOnePost qdbOne 5 3 ⟨3, 2, "t", "d"⟩
      ⟨3, 2, "t", "d", "l", ""⟩ true true).2.1 (by decide),
   (C6_notfound_precedence_over_forbidden dbOnePost qdbOne 5 3 ⟨1, 2, "t", "d"⟩
      ⟨3, 2, "t", "d", "l", ""⟩ true true).2.2.1 ⟨1, 7, 2, "t", "d", 5⟩
      (by decide) (by decide),
   (C6_notfound_precedence_over_forbidden dbOnePost qdbOne 5 1 ⟨3, 2, "t", "d"⟩
      ⟨3, 2, "t", "d", "l", ""⟩ true true).2.2.2.1 ⟨1, 7, 2, "t", "d", 5⟩
      (by decide) (by decide),
   (C6_notfound_precedence_over_forbidden dbOnePost qdbOne 5 3 ⟨3, 2, "t", "d"⟩
      ⟨3, 2, "t", "d", "l", ""⟩ true true).2.2.2.2.1 (by decide),
   (C6_notfound_precedence_over_forbidden dbOnePost qdbOne 5 3 ⟨3, 2, "t", "d"⟩
      ⟨3, 2, "t", "d", "l", ""⟩ true true).2.2.2.2.2.1 (by decide),
   (C6_notfound_precedence_over_forbidden dbOnePost qdbOne 5 3 ⟨3, 2, "t", "d"⟩
      ⟨1, 2, "t", "d", "l", ""⟩ true true).2.2.2.2.2.2.1
      ⟨1, ⟨7⟩, ⟨2⟩, "t", "d", "l", ""⟩ (by decide) (by decide) (by decide),
   (C6_notfound_precedence_over_forbidden dbOnePost qdbOne 5 1 ⟨3, 2, "t", "d"⟩
      ⟨3, 2, "t", "d", "l", ""⟩ true true).2.2.2.2.2.2.2
      ⟨1, ⟨7⟩, ⟨2⟩, "t", "d", "l", ""⟩ (by decide) (by decide) (by decide)⟩

theorem filterMap_aggRow_ids_sublist (db : DB) (v : Int) :
    ∀ (l : List PostRow),
      ((l.filterMap (aggRow db v)).map (·.id)).Sublist (l.map (·.id)) := by
  intro l
  induction l with
  | nil => simp
  | cons p rest ih =>
    rw [List.filterMap_cons]
    cases hg : aggRow db v p with
    | none =>
      simp only [List.map_cons]
      exact List.Sublist.cons _ ih
    | some r =>
      have hid : r.id = p.id := by
        unfold aggRow at hg
        cases hu : db.users.find? fun u => decide (u.id = p.authorID) with
        | none => rw [hu] at hg; cases hg
        | some u =>
          rw [hu] at hg
          cases hg
          rfl
      simp only [List.map_cons, hid]
      exact List.Sublist.cons₂ _ ih

theorem pagedPosts_ids_nodup (db : DB) (limit offset viewerID : Int) (orderBy : String)
    (f : PostFilter) (hnd : (db.posts.map (·.id)).Nodup) :
    ((pagedPosts db limit offset viewerID orderBy f).map (·.id)).Nodup := by
  unfold pagedPosts
  have h1 : ((db.posts.filterMap (aggRow db viewerID)).map (·.id)).Nodup :=
    hnd.sublist (filterMap_aggRow_ids_sublist db viewerID db.posts)
  have h2 : (((db.posts.filterMap (aggRow db viewerID)).filter
      (fun r => noQuestionnaireLink db r.id && matchesFilter f r)).map (·.id)).Nodup :=
    h1.sublist ((List.filter_sublist _).map _)
  have h3 : ((List.insertionSort (fun x y => cmpOfOrderBy orderBy x y = true)
      ((db.posts.filterMap (aggRow db viewerID)).filter
        (fun r => noQuestionnaireLink db r.id && matchesFilter f r))).map (·.id)).Nodup :=
    (List.Perm.map (·.id) (List.perm_insertionSort
      (fun x y => cmpOfOrderBy orderBy x y = true)
      ((db.posts.filterMap (aggRow db viewerID)).filter
        (fun r => noQuestionnaireLink db r.id && matchesFilter f r)))).nodup_iff.mpr h2
  exact h3.sublist (((List.take_sublist _ _).trans (List.drop_sublist _ _)).map _)

theorem dedupIDsAvoiding_append_seen (ys : List Int) :
    ∀ (xs : List Int) (seen : List Int), (∀ x ∈ xs, x ∈ seen) →
      dedupIDsAvoiding seen (xs ++ ys) = dedupIDsAvoiding seen ys := by
  intro xs
  induction xs with
  | nil => intro seen _; rfl
  | cons x rest ih =>
    intro seen h
    rw [List.cons_append, dedupIDsAvoiding, if_pos (h x (List.mem_cons_self _ _))]
    exact ih seen fun y hy => h y (List.mem_cons_of_mem _ hy)

theorem dedup_flatMap_eq (g : PostDetail → List PostDetail) :
    ∀ (ps : List PostDetail) (seen : List Int),
      ((ps.map (·.id)).Nodup) →
      (∀ p ∈ ps, p.id ∉ seen) →
      (∀ p ∈ ps, g p ≠ [] ∧ ∀ r ∈ g p, r.id = p.id) →
      dedupIDsAvoiding seen ((ps.flatMap g).map (·.id)) = ps.map (·.id) := by
  intro ps
  induction ps with
  | nil => intro seen _ _ _; rfl
  | cons p rest ih =>
    intro seen hnd hseen hg
    simp only [List.map_cons, List.nodup_cons] at hnd
    obtain ⟨hph, hndr⟩ := hnd
    obtain ⟨hne, hids⟩ := hg p (List.mem_cons_self _ _)
    rw [List.flatMap_cons, List.map_append]
    cases hgp : g p with
    | nil => exact absurd hgp hne
    | cons r rs =>
      rw [List.map_cons, List.cons_append, dedupIDsAvoiding]
      have hrid : r.id = p.id := hids r (by rw [hgp]; exact List.mem_cons_self _ _)
      rw [if_neg (by rw [hrid]; exact hseen p (List.mem_cons_self _ _)), hrid]
      have hmem : ∀ x ∈ rs.map (·.id), x ∈ p.id :: seen := by
        intro x hx
        rw [List.mem_map] at hx
        obtain ⟨r', hr', rfl⟩ := hx
        have hr'id : r'.id = p.id :=
          hids r' (by rw [hgp]; exact List.mem_cons_of_mem _ hr')
        rw [hr'id]
        exact List.mem_cons_self _ _
      rw [dedupIDsAvoiding_append_seen _ _ _ hmem]
      have hseen' : ∀ q ∈ rest, q.id ∉ (p.id :: seen) := by
        intro q hq
        rw [List.mem_cons]
        rintro (hc | hc)
        · exact hph (List.mem_map.2 ⟨q, hq, hc⟩)
        · exact hseen q (List.mem_cons_of_mem _ hq) hc
      rw [List.map_cons]
      congr 1
      exact ih (p.id :: seen) hndr hseen' (fun q hq => hg q (List.mem_cons_of_mem _ hq))

theorem fetchAllPost_dedup (db : DB) (limit offset viewerID : Int) (orderBy : String)
    (f : PostFilter) (hnd : (db.posts.map (·.id)).Nodup) :
    dedupIDsAvoiding [] ((FetchAllPost db limit offset viewerID orderBy f).map (·.id)) =
      (pagedPosts db limit offset viewerID orderBy f).map (·.id) := by
  unfold FetchAllPost
  refine dedup_flatMap_eq (leftJoinImages db) _ []
    (pagedPosts_ids_nodup db limit offset viewerID orderBy f hnd)
    (fun p _ => List.not_mem_nil _) ?_
  intro p _
  exact ⟨leftJoinImages_ne_nil db p, fun r hr => (leftJoinImages_fields db p r hr).1⟩

theorem pagedPosts_postImages_independent (db : DB) (limit offset viewerID : Int)
    (orderBy : String) (f : PostFilter) (imgs imgs' : List PostImageRow) :
    pagedPosts { db with postImages := imgs } limit offset viewerID orderBy f =
      pagedPosts { db with postImages := imgs' } limit offset viewerID orderBy f := by
  cases db
  rfl

/-- C4: for every list query, the distinct post ids of the returned
rows are exactly the ids of the paged post set — pagination is applied
before the image join — and that paged set does not depend on the
post_images table at all, so attaching or removing images never
changes which posts appear in a page. -/
theorem C4_pagination_before_image_join :
    ∀ (db : DB) (limit offset viewerID : Int) (orderBy : String) (f : PostFilter)
      (imgs imgs' : List PostImageRow),
      ((db.posts.map (·.id)).Nodup →
        dedupIDsAvoiding []
            ((FetchAllPost db limit offset viewerID orderBy f).map (·.id)) =
          (pagedPosts db limit offset viewerID orderBy f).map (·.id)) ∧
      (pagedPosts { db with postImages := imgs } limit offset viewerID orderBy f =
        pagedPosts { db with postImages := imgs' } limit offset viewerID orderBy f) ∧
      ((db.posts.map (·.id)).Nodup →
        dedupIDsAvoiding []
            ((FetchAllPost { db with postImages := imgs }
              limit offset viewerID orderBy f).map (·.id)) =
          dedupIDsAvoiding []
            ((FetchAllPost { db with postImages := imgs' }
              limit offset viewerID orderBy f).map (·.id))) := by
  intro db limit offset viewerID orderBy f imgs imgs'
  refine ⟨fetchAllPost_dedup db limit offset viewerID orderBy f,
    pagedPosts_postImages_independent db limit offset viewerID orderBy f imgs imgs', ?_⟩
  intro hnd
  have h1 := fetchAllPost_dedup { db with postImages := imgs }
    limit offset viewerID orderBy f hnd
  have h2 := fetchAllPost_dedup { db with postImages := imgs' }
    limit offset viewerID orderBy f hnd
  rw [h1, h2,
    pagedPosts_postImages_independent db limit offset viewerID orderBy f imgs imgs']

/-- Witness for C4 on `dbTwoPosts` with limit 1: the page holds exactly
the newest post's id however many image rows fan out, and replacing the
image table leaves the paged set unchanged. -/
theorem C4_pagination_before_image_join_witness :
    dedupIDsAvoiding [] ((FetchAllPost dbTwoPosts 1 0 0 "created_at DESC"
        ⟨none, none, none⟩).map (·.id)) =
      (pagedPosts dbTwoPosts 1 0 0 "created_at DESC" ⟨none, none, none⟩).map (·.id) ∧
    pagedPosts { dbTwoPosts with postImages := [] } 1 0 0 "created_at DESC"
        ⟨none, none, none⟩ =
      pagedPosts { dbTwoPosts with postImages := [⟨77, 1, "z"⟩] } 1 0 0 "created_at DESC"
        ⟨none, none, none⟩ :=
  ⟨(C4_pagination_before_image_join dbTwoPosts 1 0 0 "created_at DESC"
      ⟨none, none, none⟩ [] []).1 (by decide),
   (C4_pagination_before_image_join dbTwoPosts 1 0 0 "created_at DESC"
      ⟨none, none, none⟩ [] [⟨77, 1, "z"⟩]).2.1⟩

end Discusspedia
